import Mathlib

/-!
# KnowledgeLM — formal model of the filing-classification and download-orchestration core

This file is a shallow embedding, in Lean 4, of the core logic of the
KnowledgeLM repository:

* `src/knowledgelm/core/service.py` — `KnowledgeService` (`process_request`,
  `_matches_filter`, `_process_annual_reports`, `_process_credit_ratings`,
  `_process_issue_documents`);
* `src/knowledgelm/utils/file_utils.py` — `sanitize_folder_name`;
* `src/knowledgelm/data/screener_adapter.py` — the filename-token
  sanitization inside `download_credit_ratings_from_screener`;
* `src/knowledgelm/config.py` — `DOWNLOAD_CATEGORIES_CONFIG`, `ISSUE_DOCS_CONFIG`.

Python strings are modelled as Lean `String`s, with the Python string
primitives (`strip`, `lower`, `upper`, `in`, `split`, `int(...)`,
`"x".join(...)`) re-implemented on character lists so everything reduces in
the kernel.  Python dictionaries that stand for JSON records are modelled as
structures with `Option String` fields (`None`/missing ⇒ `none`); `dict.get`
with a default becomes `Option.getD`.  Network and filesystem effects are
modelled by oracle parameters (`downloadOk : String → Bool` for download
success, the announcement list, the glob of the destination folder, …) and an
explicit event trace for the temporal claims.
-/

/-! ## Python string primitives on character lists -/

/-- Python `str.strip()`: drop whitespace from both ends. -/
def pyStrip (s : String) : String :=
  String.mk (((s.toList.dropWhile Char.isWhitespace).reverse.dropWhile
      Char.isWhitespace).reverse)

/-- Python `str.lower()` (ASCII case mapping). -/
def pyLower (s : String) : String :=
  String.mk (s.toList.map Char.toLower)

/-- Python `str.upper()` (ASCII case mapping). -/
def pyUpper (s : String) : String :=
  String.mk (s.toList.map Char.toUpper)

/-- Helper for Python's `needle in hay`: is `needle` a contiguous infix of `hay`? -/
def subCL (needle : List Char) : List Char → Bool
  | [] => needle.isEmpty
  | c :: rest => needle.isPrefixOf (c :: rest) || subCL needle rest

/-- Python `needle in hay` on strings. -/
def strContains (hay needle : String) : Bool :=
  subCL needle.toList hay.toList

/-- Digits-only parse; `none` when empty or any character is not a digit. -/
def digitsToNat? (l : List Char) : Option Nat :=
  if l.isEmpty then none
  else if l.all Char.isDigit then
    some (l.foldl (fun acc c => acc * 10 + (c.toNat - '0'.toNat)) 0)
  else none

/-- Python `int(s)` on an already-stripped string: optional sign, then digits;
`none` models the `ValueError` branch. -/
def pyToInt? (s : String) : Option Int :=
  match s.toList with
  | '-' :: rest => (digitsToNat? rest).map (fun n => -(n : Int))
  | '+' :: rest => (digitsToNat? rest).map (fun n => (n : Int))
  | l => (digitsToNat? l).map (fun n => (n : Int))

/-- Python `str.split(sep)` core: first group and the remaining groups. -/
def splitCh (sep : Char) : List Char → List Char × List (List Char)
  | [] => ([], [])
  | c :: rest =>
    let r := splitCh sep rest
    if c = sep then ([], r.1 :: r.2) else (c :: r.1, r.2)

/-- Python `str.split(sep)`: always a non-empty list of groups. -/
def pySplit (sep : Char) (l : List Char) : List (List Char) :=
  (splitCh sep l).1 :: (splitCh sep l).2

/-- Python `url.split("/")[-1]`: the final path segment of a URL. -/
def urlLastSegment (url : String) : String :=
  String.mk ((pySplit '/' url.toList).getLastD [])

/-! ## Data model: filing records (`service.py`) -/

/-- One announcement record from the exchange feed, restricted to the keys the
core reads: `desc`, `attchmntText`, `attchmntFile`.  A missing key is `none`. -/
structure FilingRecord where
  desc : Option String
  attchmntText : Option String
  attchmntFile : Option String
deriving DecidableEq

/-- `KnowledgeService._matches_filter` (service.py lines 123-146), verbatim:
normalize `desc` by strip+lower, lowercase `attchmntText`, require a truthy
`attchmntFile`, then the per-category equality/membership tests. -/
def matchesFilter (category : String) (item : FilingRecord) : Bool :=
  let desc := pyLower (pyStrip (item.desc.getD ""))
  let attortext := pyLower (item.attchmntText.getD "")
  let hasFile := item.attchmntFile.getD "" != ""
  if !hasFile then false
  else if category == "transcripts" then
    desc == "analysts/institutional investor meet/con. call updates" &&
      strContains attortext "transcript"
  else if category == "investor_presentations" then
    desc == "investor presentation"
  else if category == "press_releases" then
    ["press release", "press release (revised)"].contains desc
  else if category == "credit_rating" then
    desc == "credit rating"
  else if category == "related_party_txns" then
    ["related party transaction", "related party transactions"].contains desc
  else false

example : matchesFilter "credit_rating"
    ⟨some " Credit Rating ", none, some "http://x/y.pdf"⟩ = true := by decide
example : matchesFilter "credit_rating"
    ⟨some "credit rating", none, none⟩ = false := by decide
example : matchesFilter "transcripts"
    ⟨some "Analysts/Institutional Investor Meet/Con. Call Updates",
     some "Earnings Call Transcript", some "u"⟩ = true := by decide
example : matchesFilter "transcripts"
    ⟨some "Analysts/Institutional Investor Meet/Con. Call Updates",
     some "audio recording", some "u"⟩ = false := by decide
example : matchesFilter "press_releases"
    ⟨some "Press Release (Revised)", none, some "u"⟩ = true := by decide

/-! ## C1 — records without an attachment URL never match -/

/-- C1: for every filing record whose `attchmntFile` field is absent or empty,
`_matches_filter` returns `false` for every category key, regardless of the
record's description or attachment text. -/
theorem no_attachment_never_matches (category : String) (item : FilingRecord)
    (h : item.attchmntFile = none ∨ item.attchmntFile = some "") :
    matchesFilter category item = false := by
  rcases h with h | h <;> simp [matchesFilter, h]

/-- Witness for C1 at a concrete record that would otherwise match
`credit_rating` by description. -/
theorem no_attachment_never_matches_witness :
    matchesFilter "credit_rating" ⟨some "credit rating", some "x", none⟩ = false :=
  no_attachment_never_matches "credit_rating"
    ⟨some "credit rating", some "x", none⟩ (Or.inl rfl)

/-! ## C4 — the classifier implements exactly the spec's rule table -/

/-- C4: for every record with a non-empty attachment URL, `_matches_filter`
implements exactly the spec's rule table on the trimmed, lowercased
description (and the lowercased attachment text for transcripts):
transcripts, investor presentations, press releases (incl. revised), credit
rating, related-party transactions.  The witness below instantiates the
credit-rating case at `" Credit Rating "` (mixed case, surrounding blanks). -/
theorem classifier_rule_table (item : FilingRecord)
    (h : item.attchmntFile.getD "" ≠ "") :
    (matchesFilter "transcripts" item = true ↔
      (pyLower (pyStrip (item.desc.getD "")) =
          "analysts/institutional investor meet/con. call updates" ∧
        strContains (pyLower (item.attchmntText.getD "")) "transcript" = true)) ∧
    (matchesFilter "investor_presentations" item = true ↔
      pyLower (pyStrip (item.desc.getD "")) = "investor presentation") ∧
    (matchesFilter "press_releases" item = true ↔
      (pyLower (pyStrip (item.desc.getD "")) = "press release" ∨
        pyLower (pyStrip (item.desc.getD "")) = "press release (revised)")) ∧
    (matchesFilter "credit_rating" item = true ↔
      pyLower (pyStrip (item.desc.getD "")) = "credit rating") ∧
    (matchesFilter "related_party_txns" item = true ↔
      (pyLower (pyStrip (item.desc.getD "")) = "related party transaction" ∨
        pyLower (pyStrip (item.desc.getD "")) = "related party transactions")) := by
  refine ⟨?_, ?_, ?_, ?_, ?_⟩ <;>
    simp [matchesFilter, h, List.elem_iff]

/-- Witness for C4: `" Credit Rating "` (whitespace, mixed case) matches the
`credit_rating` category. -/
theorem classifier_rule_table_witness :
    matchesFilter "credit_rating"
      ⟨some " Credit Rating ", none, some "http://n/se.pdf"⟩ = true :=
  ((classifier_rule_table ⟨some " Credit Rating ", none, some "http://n/se.pdf"⟩
    (by decide)).2.2.2.1).mpr (by decide)

/-! ## Event traces

An explicit trace of the observable collaborator interactions, used to state
the temporal claims (primary-source short-circuit, symbol validation before
any fetch/download). -/

/-- Observable collaborator interactions of one `process_request` run. -/
inductive Event where
  | validateSymbol
  | fetchAnnouncements
  | fetchAnnualReports
  | fetchCompanyName
  | fetchIssueDocs (apiPath : String)
  | primaryScrape
  | globScan
  | filterCheck
  | download (url : String)
  | downloadExtract (url : String)
deriving DecidableEq

/-! ## Credit-rating handler (`_process_credit_ratings`, service.py 192-219) -/

/-- Filename derived from a URL for dedupe purposes: `url.split("/")[-1]`. -/
def crFname (item : FilingRecord) : String :=
  urlLastSegment (item.attchmntFile.getD "")

/-- One iteration of the secondary-source (fallback) loop of
`_process_credit_ratings` (service.py 207-218).  State: download count,
dedupe set (filenames in the destination folder), event trace.  `ok url`
is the oracle for `adapter.download_document` success. -/
def creditStep (ok : String → Bool) (st : Nat × List String × List Event)
    (item : FilingRecord) : Nat × List String × List Event :=
  let st := (st.1, st.2.1, st.2.2 ++ [Event.filterCheck])
  if matchesFilter "credit_rating" item then
    let url := item.attchmntFile.getD ""
    if url == "" then st
    else
      let filename := urlLastSegment url
      if st.2.1.contains filename then st
      else if ok url then
        (st.1 + 1, filename :: st.2.1, st.2.2 ++ [Event.download url])
      else (st.1, st.2.1, st.2.2 ++ [Event.download url])
  else st

/-- The whole secondary-source pass: fold the loop over the shared filing
list, starting from the glob of the destination folder (`existing`).
Returns (count, final dedupe set = folder content, events).  The folder
content equals the final dedupe set because the set starts as the folder
glob and every successful download lands in the folder under the same
filename the set records. -/
def creditFallback (anns : List FilingRecord) (existing : List String)
    (ok : String → Bool) : Nat × List String × List Event :=
  anns.foldl (creditStep ok) (0, existing, [])

/-- `_process_credit_ratings`: try the primary source (screener scrape,
whose result is the oracle `primary`); a strictly positive count is returned
as-is and the fallback pass is never entered.  Otherwise run the fallback
over the shared filing list. -/
def processCreditRatings (primary : Nat) (anns : List FilingRecord)
    (existing : List String) (ok : String → Bool) : Nat × List Event :=
  if primary > 0 then (primary, [Event.primaryScrape])
  else
    let r := creditFallback anns existing ok
    (r.1, Event.primaryScrape :: Event.globScan :: r.2.2)

example :
    processCreditRatings 0 [⟨some "credit rating", none, some "http://h/a.pdf"⟩]
      [] (fun _ => true) =
    (1, [Event.primaryScrape, Event.globScan, Event.filterCheck,
         Event.download "http://h/a.pdf"]) := by decide
example :
    processCreditRatings 0 [⟨some "credit rating", none, some "http://h/a.pdf"⟩]
      ["a.pdf"] (fun _ => true) =
    (0, [Event.primaryScrape, Event.globScan, Event.filterCheck]) := by decide

/-! ## C2 — primary-source short-circuit -/

/-- C2: if the primary source (screener scrape) returns a count > 0,
`_process_credit_ratings` returns that count and the secondary source is
never invoked: the trace is exactly the primary attempt — no dedupe-set
glob, no filter pass over the filing list, no feed download. -/
theorem credit_primary_short_circuit (primary : Nat) (anns : List FilingRecord)
    (existing : List String) (ok : String → Bool) (h : primary > 0) :
    processCreditRatings primary anns existing ok = (primary, [Event.primaryScrape]) ∧
    Event.globScan ∉ (processCreditRatings primary anns existing ok).2 ∧
    Event.filterCheck ∉ (processCreditRatings primary anns existing ok).2 ∧
    (∀ url, Event.download url ∉ (processCreditRatings primary anns existing ok).2) := by
  have h1 : processCreditRatings primary anns existing ok =
      (primary, [Event.primaryScrape]) := by
    simp [processCreditRatings, h]
  refine ⟨h1, ?_, ?_, ?_⟩ <;> simp [h1]

/-- Witness for C2 at a concrete run: primary count 1, a filing list whose
only record would match the fallback filter, a failing download oracle. -/
theorem credit_primary_short_circuit_witness :
    processCreditRatings 1 [⟨some "credit rating", none, some "http://h/a.pdf"⟩]
      [] (fun _ => false) = (1, [Event.primaryScrape]) :=
  (credit_primary_short_circuit 1
    [⟨some "credit rating", none, some "http://h/a.pdf"⟩] [] (fun _ => false)
    (by decide)).1

/-! ## C6 — idempotence of the secondary-source pass -/

/-- An item is *handled* wrt a dedupe set: whenever it matches the
credit-rating filter, has a URL, and its download would succeed, its derived
filename is already in the set. -/
def crHandled (ok : String → Bool) (files : List String)
    (item : FilingRecord) : Prop :=
  matchesFilter "credit_rating" item = true →
    item.attchmntFile.getD "" ≠ "" →
      ok (item.attchmntFile.getD "") = true →
        files.contains (crFname item) = true

theorem creditStep_contains_mono (ok : String → Bool)
    (st : Nat × List String × List Event) (item : FilingRecord) (f : String)
    (h : st.2.1.contains f = true) :
    (creditStep ok st item).2.1.contains f = true := by
  simp only [creditStep]
  split_ifs <;> simp_all

theorem creditFold_contains_mono (ok : String → Bool) (anns : List FilingRecord)
    (st : Nat × List String × List Event) (f : String)
    (h : st.2.1.contains f = true) :
    (anns.foldl (creditStep ok) st).2.1.contains f = true := by
  induction anns generalizing st with
  | nil => exact h
  | cons a l ih =>
    exact ih (creditStep ok st a) (creditStep_contains_mono ok st a f h)

theorem creditFold_complete (ok : String → Bool) (anns : List FilingRecord)
    (st : Nat × List String × List Event) (item : FilingRecord)
    (hmem : item ∈ anns) :
    crHandled ok (anns.foldl (creditStep ok) st).2.1 item := by
  induction anns generalizing st with
  | nil => cases hmem
  | cons a l ih =>
    rcases List.mem_cons.mp hmem with rfl | hmem'
    · intro hm hu hok
      rw [List.foldl_cons]
      apply creditFold_contains_mono
      simp only [creditStep, crFname]
      split_ifs <;> simp_all [crFname]
    · exact ih (creditStep ok st a) hmem'

theorem creditStep_noop (ok : String → Bool)
    (st : Nat × List String × List Event) (item : FilingRecord)
    (h : crHandled ok st.2.1 item) :
    (creditStep ok st item).1 = st.1 ∧ (creditStep ok st item).2.1 = st.2.1 := by
  unfold crHandled at h
  simp only [creditStep]
  split_ifs <;> simp_all [crFname]

theorem creditFold_noop (ok : String → Bool) (anns : List FilingRecord)
    (st : Nat × List String × List Event)
    (h : ∀ item ∈ anns, crHandled ok st.2.1 item) :
    (anns.foldl (creditStep ok) st).1 = st.1 ∧
      (anns.foldl (creditStep ok) st).2.1 = st.2.1 := by
  induction anns generalizing st with
  | nil => exact ⟨rfl, rfl⟩
  | cons a l ih =>
    have hstep := creditStep_noop ok st a (h a (List.mem_cons_self a l))
    rw [List.foldl_cons]
    have ihl := ih (creditStep ok st a) (by
      intro item hi
      rw [hstep.2]
      exact h item (List.mem_cons_of_mem a hi))
    exact ⟨by rw [ihl.1, hstep.1], by rw [ihl.2, hstep.2]⟩

/-- C6: the secondary-source (fallback) credit-rating pass is idempotent wrt
the destination folder: a second pass over the same filing list, starting
from the folder state the first pass left behind (its final dedupe set),
downloads 0 new files. -/
theorem credit_fallback_idempotent (anns : List FilingRecord)
    (existing : List String) (ok : String → Bool) :
    (creditFallback anns (creditFallback anns existing ok).2.1 ok).1 = 0 := by
  have hcomplete : ∀ item ∈ anns,
      crHandled ok (creditFallback anns existing ok).2.1 item := by
    intro item hi
    exact creditFold_complete ok anns (0, existing, []) item hi
  exact (creditFold_noop ok anns ((0 : Nat),
    (creditFallback anns existing ok).2.1, ([] : List Event)) hcomplete).1

example :
    (creditFallback
      [⟨some "credit rating", none, some "http://h/a.pdf"⟩,
       ⟨some "credit rating", none, some "http://h/b.pdf"⟩]
      [] (fun u => u == "http://h/a.pdf")).1 = 1 := by decide
example :
    (creditFallback
      [⟨some "credit rating", none, some "http://h/a.pdf"⟩,
       ⟨some "credit rating", none, some "http://h/b.pdf"⟩]
      ["a.pdf", "b.pdf"] (fun _ => true)).1 = 0 := by decide

/-! ## Annual-report handler (`_process_annual_reports`, service.py 148-190) -/

/-- One annual-report descriptor, restricted to the keys the handler reads.
`toYr` is kept as a string (`str(to_yr)` is applied before parsing). -/
structure ARDoc where
  toYr : Option String
  fileName : Option String
  url : Option String
  fileUrl : Option String
  documentUrl : Option String
deriving DecidableEq

/-- The Python truthiness-or chain
`doc.get("fileName") or doc.get("url") or doc.get("fileUrl") or doc.get("documentUrl")`:
first truthy (non-`None`, non-empty) value, empty string when none is. -/
def arResolveUrl (d : ARDoc) : String :=
  let f := d.fileName.getD ""
  if f != "" then f
  else
    let u := d.url.getD ""
    if u != "" then u
    else
      let fu := d.fileUrl.getD ""
      if fu != "" then fu
      else d.documentUrl.getD ""

/-- Spec-side URL resolution, following the spec's words: the first
*non-empty* of the fields `fileName`, `url`, `fileUrl`, `documentUrl`. -/
def arSpecUrl (d : ARDoc) : String :=
  (([d.fileName, d.url, d.fileUrl, d.documentUrl].map (fun o => o.getD "")).filter
    (fun s => s != "")).headD ""

theorem arResolveUrl_eq_spec (d : ARDoc) : arResolveUrl d = arSpecUrl d := by
  by_cases h1 : d.fileName.getD "" = "" <;>
    by_cases h2 : d.url.getD "" = "" <;>
      by_cases h3 : d.fileUrl.getD "" = "" <;>
        by_cases h4 : d.documentUrl.getD "" = "" <;>
          simp [arResolveUrl, arSpecUrl, h1, h2, h3, h4]

/-- Spec-side selection rule for one descriptor: URL resolves non-empty,
`toYr` parses as an integer after trimming, and either all-mode is set or the
parsed year lies in `[from_date.year, to_date.year]` inclusive. -/
def arSpecSelected (fromYear toYear : Int) (allMode : Bool) (d : ARDoc) : Bool :=
  arSpecUrl d != "" &&
    match pyToInt? (pyStrip (d.toYr.getD "")) with
    | none => false
    | some yr => allMode || (decide (fromYear ≤ yr) && decide (yr ≤ toYear))

/-- One iteration of the inner loop of `_process_annual_reports`
(service.py 168-189): resolve the URL, skip when URL or `toYr` is falsy,
skip when `int(str(to_yr).strip())` raises, skip when out of the year range
and not all-mode; otherwise attempt the download (recorded in the second
component) and count it on success. -/
def arStep (fromYear toYear : Int) (allMode : Bool) (ok : String → Bool)
    (st : Nat × List String) (d : ARDoc) : Nat × List String :=
  let url := arResolveUrl d
  let toYr := d.toYr.getD ""
  if url == "" || toYr == "" then st
  else
    match pyToInt? (pyStrip toYr) with
    | none => st
    | some yr =>
      let attempt := fun (st : Nat × List String) =>
        if ok url then (st.1 + 1, st.2 ++ [url]) else (st.1, st.2 ++ [url])
      if allMode then attempt st
      else if yr < fromYear ∨ yr > toYear then st
      else attempt st

/-- `_process_annual_reports`: iterate the year-keyed descriptor map
(`ar_data.items()`), returning the success count and the list of attempted
download URLs (in order). -/
def processAnnualReports (arData : List (String × List ARDoc))
    (fromYear toYear : Int) (allMode : Bool) (ok : String → Bool) :
    Nat × List String :=
  if arData.isEmpty then (0, [])
  else arData.foldl (fun st p => p.2.foldl (arStep fromYear toYear allMode ok) st)
    (0, [])

example :
    processAnnualReports [("2023", [⟨some "2023", some "http://x", none, none, none⟩])]
      2023 2023 false (fun _ => true) = (1, ["http://x"]) := by decide
example :
    processAnnualReports [("2023", [⟨some "2023", some "http://x", none, none, none⟩])]
      2020 2020 false (fun _ => true) = (0, []) := by decide
example :
    processAnnualReports [("2023", [⟨some "2023", some "http://x", none, none, none⟩])]
      2020 2020 true (fun _ => true) = (1, ["http://x"]) := by decide
example :
    processAnnualReports [("2023", [⟨some "20x3", some "http://x", none, none, none⟩,
                                    ⟨none, some "http://y", none, none, none⟩,
                                    ⟨some "2023", none, none, none, none⟩])]
      2023 2023 false (fun _ => true) = (0, []) := by decide

/-! ## C5 — annual-report selection rule -/

theorem arStep_spec (fy ty : Int) (am : Bool) (ok : String → Bool)
    (st : Nat × List String) (d : ARDoc) :
    arStep fy ty am ok st d =
      if arSpecSelected fy ty am d = true then
        (if ok (arSpecUrl d) then (st.1 + 1, st.2 ++ [arSpecUrl d])
         else (st.1, st.2 ++ [arSpecUrl d]))
      else st := by
  by_cases hu : arSpecUrl d = ""
  · have hsel : arSpecSelected fy ty am d = false := by simp [arSpecSelected, hu]
    simp [arStep, arResolveUrl_eq_spec, hu, hsel]
  · by_cases ht : d.toYr.getD "" = ""
    · have hzero : pyToInt? (pyStrip (d.toYr.getD "")) = none := by rw [ht]; rfl
      have hsel : arSpecSelected fy ty am d = false := by
        simp [arSpecSelected, hzero]
      simp [arStep, arResolveUrl_eq_spec, ht, hsel]
    · rcases hp : pyToInt? (pyStrip (d.toYr.getD "")) with _ | yr
      · have hsel : arSpecSelected fy ty am d = false := by
          simp [arSpecSelected, hp]
        simp [arStep, arResolveUrl_eq_spec, hu, ht, hp, hsel]
      · by_cases ham : am = true
        · subst ham
          have hsel : arSpecSelected fy ty true d = true := by
            simp [arSpecSelected, hp, hu]
          simp [arStep, arResolveUrl_eq_spec, hu, ht, hp, hsel]
        · have ham' : am = false := by simpa using ham
          subst ham'
          by_cases hr : yr < fy ∨ yr > ty
          · have hdec : (decide (fy ≤ yr) && decide (yr ≤ ty)) = false := by
              rcases hr with hr | hr <;> simp <;> omega
            have hsel : arSpecSelected fy ty false d = false := by
              simp [arSpecSelected, hp, hdec]
            simp [arStep, arResolveUrl_eq_spec, hu, ht, hp, hr, hsel]
          · have hdec : (decide (fy ≤ yr) && decide (yr ≤ ty)) = true := by
              simp only [not_or, not_lt] at hr
              simp [hr.1, hr.2]
            have hsel : arSpecSelected fy ty false d = true := by
              simp [arSpecSelected, hp, hdec, hu]
            simp [arStep, arResolveUrl_eq_spec, hu, ht, hp, hr, hsel]

theorem ar_fold_spec (fy ty : Int) (am : Bool) (ok : String → Bool)
    (docs : List ARDoc) (c : Nat) (us : List String) :
    docs.foldl (arStep fy ty am ok) (c, us) =
      (c + (docs.filter (arSpecSelected fy ty am)).countP
          (fun d => ok (arSpecUrl d)),
       us ++ docs.filterMap (fun d =>
          if arSpecSelected fy ty am d = true then some (arSpecUrl d) else none)) := by
  induction docs generalizing c us with
  | nil => simp
  | cons d l ih =>
    rw [List.foldl_cons, arStep_spec]
    by_cases hs : arSpecSelected fy ty am d = true
    · by_cases hok : ok (arSpecUrl d) = true
      · rw [if_pos hs, if_pos hok, ih]
        simp only [List.filter_cons, List.filterMap_cons, hs, if_pos,
          List.countP_cons, hok, Prod.mk.injEq]
        constructor
        · omega
        · simp
      · rw [if_pos hs, if_neg (by simp [hok]), ih]
        simp only [List.filter_cons, List.filterMap_cons, hs, if_pos,
          List.countP_cons, hok, Prod.mk.injEq]
        constructor
        · simp
        · simp
    · rw [if_neg hs, ih]
      simp [List.filter_cons, List.filterMap_cons, hs]

theorem ar_fold_pairs (fy ty : Int) (am : Bool) (ok : String → Bool)
    (arData : List (String × List ARDoc)) (st : Nat × List String) :
    arData.foldl (fun st p => p.2.foldl (arStep fy ty am ok) st) st =
      (arData.flatMap Prod.snd).foldl (arStep fy ty am ok) st := by
  induction arData generalizing st with
  | nil => rfl
  | cons p l ih =>
    rw [List.foldl_cons, List.flatMap_cons, List.foldl_append, ih]

/-- C5: the annual-report handler attempts to download exactly the descriptors
selected by the spec's rule — URL resolves to a non-empty value (first
non-empty of `fileName`, `url`, `fileUrl`, `documentUrl`), `toYr` parses as an
integer after trimming, and all-mode or parsed year within
`[from_date.year, to_date.year]` inclusive — and counts the successful ones.
Descriptors failing any condition are skipped without any error (the handler
is a total function). -/
theorem annual_reports_selection (arData : List (String × List ARDoc))
    (fy ty : Int) (am : Bool) (ok : String → Bool) :
    (processAnnualReports arData fy ty am ok).2 =
      (arData.flatMap Prod.snd).filterMap (fun d =>
        if arSpecSelected fy ty am d = true then some (arSpecUrl d) else none) ∧
    (processAnnualReports arData fy ty am ok).1 =
      ((arData.flatMap Prod.snd).filter (arSpecSelected fy ty am)).countP
        (fun d => ok (arSpecUrl d)) := by
  rcases arData with _ | ⟨p, l⟩
  · simp [processAnnualReports]
  · rw [processAnnualReports, if_neg (by simp), ar_fold_pairs, ar_fold_spec]
    simp

/-! ## Issue-document aggregator (`_process_issue_documents`, service.py 221-307,
and `ISSUE_DOCS_CONFIG`, config.py 56-98) -/

/-- One entry of `ISSUE_DOCS_CONFIG`. -/
structure EndpointSpec where
  label : String
  apiPath : String
  apiParams : List (String × String)
  attachmentFields : List String
  subfolder : String
  symbolReliable : Bool
deriving DecidableEq

def offerDocumentsSpec : EndpointSpec :=
  ⟨"Offer Documents (IPO)", "/corporates/offerdocs", [("index", "equities")],
   ["fpAttach"], "offer_documents", false⟩

def rightsIssueSpec : EndpointSpec :=
  ⟨"Rights Issue", "/corporates/offerdocs/rights", [("index", "equities")],
   ["draftAttch", "finalAttach"], "rights_issue", true⟩

def qipOfferSpec : EndpointSpec :=
  ⟨"QIP Offer", "/corporates/offerdocs/rights", [("index", "qip")],
   ["attachFile"], "qip_offer", false⟩

def infoMemorandumSpec : EndpointSpec :=
  ⟨"Information Memorandum", "/corporates/offerdocs/arrangementscheme/infomemo",
   [], ["date_attachmnt"], "info_memorandum", false⟩

def schemeDocumentSpec : EndpointSpec :=
  ⟨"Scheme of Arrangement", "/corporates/offerdocs/arrangementscheme", [],
   ["date_attachmnt"], "scheme_document", false⟩

/-- `ISSUE_DOCS_CONFIG` (config.py 56-98), in dict insertion order. -/
def ISSUE_DOCS_CONFIG : List EndpointSpec :=
  [offerDocumentsSpec, rightsIssueSpec, qipOfferSpec, infoMemorandumSpec,
   schemeDocumentSpec]

/-- One record returned by an issue-document endpoint: the `symbol` and
`company` keys plus the attachment fields, as a key/value list.  A JSON
`null` value is `some none`; a missing key is absence from the list. -/
structure IssueDoc where
  symbol : Option String
  company : Option String
  fields : List (String × Option String)
deriving DecidableEq

/-- Python `str(doc.get(field, "") or "")`: empty string for a missing key or
a `null` value. -/
def IssueDoc.getField (d : IssueDoc) (field : String) : String :=
  match d.fields.lookup field with
  | some (some s) => s
  | _ => ""

/-- The record filter of `_process_issue_documents` (service.py 265-283):
symbol-reliable specs keep records whose stripped, uppercased `symbol` equals
the uppercased requested symbol; otherwise, when the resolved company name is
truthy, keep records where the stripped-lowercased company name and record
`company` field contain each other in either direction (`matching` stays
empty when the company name did not resolve). -/
def filterIssueDocs (spec : EndpointSpec) (symbol companyName : String)
    (docs : List IssueDoc) : List IssueDoc :=
  if spec.symbolReliable then
    docs.filter (fun doc => pyUpper (pyStrip (doc.symbol.getD "")) == pyUpper symbol)
  else if companyName == "" then []
  else
    let companyLower := pyLower (pyStrip companyName)
    docs.filter (fun doc =>
      strContains (pyLower (pyStrip (doc.company.getD ""))) companyLower ||
        strContains companyLower (pyLower (pyStrip (doc.company.getD ""))))

/-- The per-spec body of `_process_issue_documents` (service.py 258-304):
fetch, bail out with 0 on an empty/error response, filter, bail out with 0
when nothing matches, else probe every attachment field of every matching
record, skipping empty/`"-"`/`"null"` values, counting successful
download-and-extracts. -/
def issueCountFor (symbol companyName : String)
    (getDocs : String → List (String × String) → List IssueDoc)
    (okx : String → Bool) (spec : EndpointSpec) : Nat :=
  let documents := getDocs spec.apiPath spec.apiParams
  if documents.isEmpty then 0
  else
    let matching := filterIssueDocs spec symbol companyName documents
    if matching.isEmpty then 0
    else
      matching.foldl (fun c doc =>
        spec.attachmentFields.foldl (fun c field =>
          let url := pyStrip (doc.getField field)
          if url == "" || url == "-" || url == "null" then c
          else if okx url then c + 1 else c) c) 0

/-- The download-and-extract attempts of one spec (the `downloadExtract`
events of the same loop), for the event trace. -/
def issueSpecEvents (symbol companyName : String)
    (getDocs : String → List (String × String) → List IssueDoc)
    (spec : EndpointSpec) : List Event :=
  Event.fetchIssueDocs spec.apiPath ::
    (filterIssueDocs spec symbol companyName
        (getDocs spec.apiPath spec.apiParams)).flatMap (fun doc =>
      spec.attachmentFields.filterMap (fun field =>
        let url := pyStrip (doc.getField field)
        if url == "" || url == "-" || url == "null" then none
        else some (Event.downloadExtract url)))

/-- `_process_issue_documents`: resolve the company name once, then a count
per endpoint spec (the per-spec iterations are independent, so the loop is a
map over the static config), plus the event trace. -/
def processIssueDocuments (symbol companyName : String)
    (getDocs : String → List (String × String) → List IssueDoc)
    (okx : String → Bool) : List (String × Nat) × List Event :=
  (ISSUE_DOCS_CONFIG.map (fun spec =>
      (spec.label, issueCountFor symbol companyName getDocs okx spec)),
   Event.fetchCompanyName ::
     ISSUE_DOCS_CONFIG.flatMap (issueSpecEvents symbol companyName getDocs))

example :
    (processIssueDocuments "ABC" "ABC Limited"
      (fun p _ => if p == "/corporates/offerdocs/rights" then
          [⟨some "ABC", none, [("draftAttch", some "http://d/x.zip")]⟩] else [])
      (fun _ => true)).1 =
    [("Offer Documents (IPO)", 0), ("Rights Issue", 1), ("QIP Offer", 0),
     ("Information Memorandum", 0), ("Scheme of Arrangement", 0)] := by decide

theorem subCL_nil (l : List Char) : subCL [] l = true := by
  cases l with
  | nil => rfl
  | cons c rest => simp [subCL, List.isPrefixOf]

/-- Python's `"" in s` is always `True`. -/
theorem strContains_empty_needle (s : String) : strContains s "" = true :=
  subCL_nil s.toList

/-- Full characterization of the issue-document record filter: membership in
the filtered list, for both the symbol-reliable and the company-name path
(including the `if company_name:` guard that empties the match list when the
company name did not resolve). -/
theorem filterIssueDocs_mem_iff (spec : EndpointSpec) (symbol companyName : String)
    (docs : List IssueDoc) (d : IssueDoc) :
    (spec.symbolReliable = true →
      (d ∈ filterIssueDocs spec symbol companyName docs ↔
        (d ∈ docs ∧ pyUpper (pyStrip (d.symbol.getD "")) = pyUpper symbol))) ∧
    (spec.symbolReliable = false →
      (d ∈ filterIssueDocs spec symbol companyName docs ↔
        (d ∈ docs ∧ companyName ≠ "" ∧
          (strContains (pyLower (pyStrip (d.company.getD "")))
              (pyLower (pyStrip companyName)) = true ∨
            strContains (pyLower (pyStrip companyName))
              (pyLower (pyStrip (d.company.getD ""))) = true)))) := by
  constructor
  · intro h
    simp [filterIssueDocs, h, List.mem_filter]
  · intro h
    by_cases hc : companyName = ""
    · simp [filterIssueDocs, h, hc]
    · simp [filterIssueDocs, h, hc, List.mem_filter, and_assoc]

/-! ## C7 — all five labels always present; failures stay local -/

/-- C7: the issue-document aggregator returns a count for all five endpoint
labels on every run; an empty/error endpoint response (modelled as `[]`) or
an empty match set yields the entry `(label, 0)`; and the count of a spec
depends only on that spec's own endpoint response, so one endpoint failing
never changes (let alone aborts) the others. -/
theorem issue_documents_labels_total (symbol companyName : String)
    (getDocs : String → List (String × String) → List IssueDoc)
    (okx : String → Bool) :
    ((processIssueDocuments symbol companyName getDocs okx).1.map Prod.fst =
      ["Offer Documents (IPO)", "Rights Issue", "QIP Offer",
       "Information Memorandum", "Scheme of Arrangement"]) ∧
    (∀ spec ∈ ISSUE_DOCS_CONFIG, getDocs spec.apiPath spec.apiParams = [] →
      (spec.label, 0) ∈ (processIssueDocuments symbol companyName getDocs okx).1) ∧
    (∀ spec ∈ ISSUE_DOCS_CONFIG,
      filterIssueDocs spec symbol companyName (getDocs spec.apiPath spec.apiParams)
          = [] →
      (spec.label, 0) ∈ (processIssueDocuments symbol companyName getDocs okx).1) ∧
    (∀ (getDocs2 : String → List (String × String) → List IssueDoc),
      ∀ spec ∈ ISSUE_DOCS_CONFIG,
        getDocs spec.apiPath spec.apiParams = getDocs2 spec.apiPath spec.apiParams →
        issueCountFor symbol companyName getDocs okx spec =
          issueCountFor symbol companyName getDocs2 okx spec) := by
  refine ⟨rfl, ?_, ?_, ?_⟩
  · intro spec hs h
    have h0 : issueCountFor symbol companyName getDocs okx spec = 0 := by
      simp [issueCountFor, h]
    have hm : (spec.label, issueCountFor symbol companyName getDocs okx spec) ∈
        (processIssueDocuments symbol companyName getDocs okx).1 :=
      List.mem_map_of_mem _ hs
    rw [h0] at hm
    exact hm
  · intro spec hs h
    have h0 : issueCountFor symbol companyName getDocs okx spec = 0 := by
      simp [issueCountFor, h]
    have hm : (spec.label, issueCountFor symbol companyName getDocs okx spec) ∈
        (processIssueDocuments symbol companyName getDocs okx).1 :=
      List.mem_map_of_mem _ hs
    rw [h0] at hm
    exact hm
  · intro getDocs2 spec hs h
    simp [issueCountFor, h]

/-- Witness for C7: the all-empty endpoint oracle yields the entry
`("Offer Documents (IPO)", 0)`. -/
theorem issue_documents_labels_total_witness :
    ("Offer Documents (IPO)", 0) ∈
      (processIssueDocuments "X" "" (fun _ _ => []) (fun _ => false)).1 :=
  (issue_documents_labels_total "X" "" (fun _ _ => []) (fun _ => false)).2.1
    offerDocumentsSpec (List.Mem.head _) rfl

/-! ## C8 — the record filter (corrected: empty resolved company name) -/

/-- Counterexample to C8 as stated: for a non-symbol-reliable spec, when the
company name resolves to the empty string, the claim's rule ("kept iff the
resolved name and the record's company field are substrings of each other")
says this record is kept — the two empty normalized strings contain each
other — but the code's `if company_name:` guard keeps nothing. -/
theorem issue_filter_company_counterexample :
    (strContains (pyLower (pyStrip (((⟨none, some "", []⟩ : IssueDoc)).company.getD "")))
        (pyLower (pyStrip "")) = true ∧
      strContains (pyLower (pyStrip ""))
        (pyLower (pyStrip (((⟨none, some "", []⟩ : IssueDoc)).company.getD ""))) = true) ∧
    filterIssueDocs schemeDocumentSpec "ABC" "" [⟨none, some "", []⟩] = [] := by
  decide

/-- C8 (amended): for symbol-reliable specs a record is kept iff its stripped,
case-folded `symbol` equals the requested symbol (regardless of all other
fields); for non-symbol-reliable specs a record is kept iff the resolved
company name is non-empty *and* the stripped-lowercased resolved name and
record `company` field are substrings of each other in either direction.
(The claim as frozen omitted the non-empty-resolution condition.) -/
theorem issue_filter_matching_rule (spec : EndpointSpec)
    (symbol companyName : String) (docs : List IssueDoc) (d : IssueDoc) :
    (spec.symbolReliable = true →
      (d ∈ filterIssueDocs spec symbol companyName docs ↔
        (d ∈ docs ∧ pyUpper (pyStrip (d.symbol.getD "")) = pyUpper symbol))) ∧
    (spec.symbolReliable = false →
      (d ∈ filterIssueDocs spec symbol companyName docs ↔
        (d ∈ docs ∧ companyName ≠ "" ∧
          (strContains (pyLower (pyStrip (d.company.getD "")))
              (pyLower (pyStrip companyName)) = true ∨
            strContains (pyLower (pyStrip companyName))
              (pyLower (pyStrip (d.company.getD ""))) = true)))) :=
  filterIssueDocs_mem_iff spec symbol companyName docs d

/-- Witness for C8: under the symbol-reliable Rights Issue spec, a record
with symbol `" hdfcbank "` is kept for requested symbol `"HDFCBANK"`. -/
theorem issue_filter_matching_rule_witness :
    (⟨some " hdfcbank ", none, []⟩ : IssueDoc) ∈
      filterIssueDocs rightsIssueSpec "HDFCBANK" ""
        [⟨some " hdfcbank ", none, []⟩] :=
  ((issue_filter_matching_rule rightsIssueSpec "HDFCBANK" ""
      [⟨some " hdfcbank ", none, []⟩] ⟨some " hdfcbank ", none, []⟩).1 rfl).mpr
    ⟨List.Mem.head _, by decide⟩

/-! ## C10 — records with a missing/empty company field always pass -/

/-- C10: for every non-symbol-reliable spec and every run where the company
name resolved non-empty, a returned record whose `company` field is missing
or empty passes the company-name filter (the empty string is a substring of
every name), so it reaches the attachment-field probing stage. -/
theorem empty_company_passes_filter (spec : EndpointSpec)
    (symbol companyName : String) (docs : List IssueDoc) (d : IssueDoc)
    (hrel : spec.symbolReliable = false) (hc : companyName ≠ "") (hd : d ∈ docs)
    (hcomp : d.company = none ∨ d.company = some "") :
    d ∈ filterIssueDocs spec symbol companyName docs := by
  have hempty : pyLower (pyStrip (d.company.getD "")) = "" := by
    rcases hcomp with h | h <;> rw [h] <;> rfl
  refine ((filterIssueDocs_mem_iff spec symbol companyName docs d).2 hrel).mpr
    ⟨hd, hc, Or.inr ?_⟩
  rw [hempty]
  exact strContains_empty_needle _

/-- Witness for C10: a record with no `company` key passes the Information
Memorandum filter for resolved name `"HDFC Bank Limited"`. -/
theorem empty_company_passes_filter_witness :
    (⟨none, none, []⟩ : IssueDoc) ∈
      filterIssueDocs infoMemorandumSpec "ABC" "HDFC Bank Limited"
        [⟨none, none, []⟩] :=
  empty_company_passes_filter infoMemorandumSpec "ABC" "HDFC Bank Limited"
    [⟨none, none, []⟩] ⟨none, none, []⟩ rfl (by decide) (List.Mem.head _)
    (Or.inl rfl)

/-! ## Screener filename-token sanitization
(`download_credit_ratings_from_screener`, screener_adapter.py 186-223) -/

/-- `"".join(c if c.isalnum() else "_" for c in raw_text)` (ASCII `isalnum`). -/
def mapNonAlnum (r : List Char) : List Char :=
  r.map (fun c => if c.isAlphanum then c else '_')

/-- Python `"_".join(groups)`. -/
def joinU : List (List Char) → List Char
  | [] => []
  | [g] => g
  | g :: gs => g ++ '_' :: joinU gs

/-- `"_".join(filter(None, safe_text.split("_")))` applied to the mapped
snippet: the code-side sanitization pipeline of screener_adapter.py 193-195. -/
def pySafeText (r : List Char) : List Char :=
  joinU ((pySplit '_' (mapNonAlnum r)).filter (fun g => !g.isEmpty))

/-- The date token: `"Unknown_Date"` when the snippet is absent
(`date_div` is `None`) or sanitizes to the empty string; else the
sanitized text (screener_adapter.py 187-197). -/
def sanitizeDateToken (raw : Option String) : String :=
  match raw with
  | none => "Unknown_Date"
  | some r =>
    let s := pySafeText r.toList
    if s.isEmpty then "Unknown_Date" else String.mk s

/-- `filename = f"CreditRating-{date_text}.pdf"`
(screener_adapter.py 200 and 223). -/
def creditRatingFilename (raw : Option String) : String :=
  "CreditRating-" ++ sanitizeDateToken raw ++ ".pdf"

/-- Spec-side: collapse every run of consecutive underscores into a single
underscore. -/
def collapseUnderscoreRuns (l : List Char) : List Char :=
  l.foldr (fun c acc =>
    if c == '_' && (acc.head? == some '_') then acc else c :: acc) []

/-- Spec-side: strip trailing underscores. -/
def dropTrailingUnderscores (l : List Char) : List Char :=
  (l.reverse.dropWhile (fun c => c == '_')).reverse

/-- Spec-side: strip leading and trailing underscores. -/
def stripUnderscores (l : List Char) : List Char :=
  (dropTrailingUnderscores l).dropWhile (fun c => c == '_')

/-- The token as the spec describes it: keep alphanumerics, replace every
other character with an underscore, collapse underscore runs, strip leading
and trailing underscores, fall back to `"Unknown_Date"` when absent or
empty. -/
def specSanitizeToken (raw : Option String) : String :=
  match raw with
  | none => "Unknown_Date"
  | some r =>
    let cleaned := stripUnderscores (collapseUnderscoreRuns (mapNonAlnum r.toList))
    if cleaned.isEmpty then "Unknown_Date" else String.mk cleaned

example : sanitizeDateToken (some "4 Jul from icra") = "4_Jul_from_icra" := by decide
example : sanitizeDateToken (some " ,24 Aug, ") = "24_Aug" := by decide
example : sanitizeDateToken (some ",,--") = "Unknown_Date" := by decide
example : sanitizeDateToken none = "Unknown_Date" := by decide
example : creditRatingFilename (some "4 Jul from icra") =
    "CreditRating-4_Jul_from_icra.pdf" := by decide
example : specSanitizeToken (some " ,24 Aug, ") = "24_Aug" := by decide

/-! ## C9 — code-side pipeline equals the spec's collapse-and-strip -/

theorem dropTrailU_cons_ne (c : Char) (x : List Char) (hc : c ≠ '_') :
    dropTrailingUnderscores (c :: x) = c :: dropTrailingUnderscores x := by
  unfold dropTrailingUnderscores
  rw [List.reverse_cons, List.dropWhile_append]
  by_cases he : (x.reverse.dropWhile (fun c => c == '_')).isEmpty = true
  · rw [if_pos he]
    have hone : List.dropWhile (fun c => c == '_') [c] = [c] := by
      simp [List.dropWhile_cons, hc]
    have hx : x.reverse.dropWhile (fun c => c == '_') = [] := by
      simpa [List.isEmpty_iff] using he
    rw [hone, hx]
    simp
  · rw [if_neg he]
    simp

theorem dropTrailU_cons_of_ne_nil (a : Char) (y : List Char)
    (h : dropTrailingUnderscores y ≠ []) :
    dropTrailingUnderscores (a :: y) = a :: dropTrailingUnderscores y := by
  unfold dropTrailingUnderscores at h ⊢
  have he : ¬(y.reverse.dropWhile (fun c => c == '_')).isEmpty = true := by
    simp only [List.isEmpty_iff]
    intro hnil
    exact h (by rw [hnil]; rfl)
  rw [List.reverse_cons, List.dropWhile_append, if_neg he]
  simp

theorem dropTrailU_underscore_nil (y : List Char)
    (h : dropTrailingUnderscores y = []) :
    dropTrailingUnderscores ('_' :: y) = [] := by
  unfold dropTrailingUnderscores at h ⊢
  have hy : y.reverse.dropWhile (fun c => c == '_') = [] := by
    simpa [List.reverse_eq_nil_iff] using h
  rw [List.reverse_cons, List.dropWhile_append, if_pos (by simp [hy])]
  simp [List.dropWhile_cons]

theorem collapseU_cons (c : Char) (t : List Char) :
    collapseUnderscoreRuns (c :: t) =
      if c == '_' && ((collapseUnderscoreRuns t).head? == some '_') then
        collapseUnderscoreRuns t
      else c :: collapseUnderscoreRuns t := rfl

theorem collapseU_cons_ne (c : Char) (t : List Char) (hc : c ≠ '_') :
    collapseUnderscoreRuns (c :: t) = c :: collapseUnderscoreRuns t := by
  rw [collapseU_cons]
  simp [hc]

theorem collapseU_head_underscore (t : List Char) :
    (collapseUnderscoreRuns ('_' :: t)).head? = some '_' := by
  rw [collapseU_cons]
  by_cases h : ((collapseUnderscoreRuns t).head? == some '_') = true
  · rw [if_pos (by simp [h])]
    simpa using h
  · rw [if_neg (by simp [h])]
    simp

theorem collapseU_uu (t : List Char) :
    collapseUnderscoreRuns ('_' :: '_' :: t) = collapseUnderscoreRuns ('_' :: t) := by
  rw [collapseU_cons '_' ('_' :: t)]
  rw [if_pos]
  simp [collapseU_head_underscore]

theorem collapseU_underscore_of_head_ne (t : List Char)
    (h : (collapseUnderscoreRuns t).head? ≠ some '_') :
    collapseUnderscoreRuns ('_' :: t) = '_' :: collapseUnderscoreRuns t := by
  rw [collapseU_cons, if_neg]
  simp [h]

theorem splitCh_underscore (l : List Char) :
    splitCh '_' ('_' :: l) = ([], (splitCh '_' l).1 :: (splitCh '_' l).2) := by
  simp [splitCh]

theorem splitCh_cons_ne (c : Char) (l : List Char) (hc : c ≠ '_') :
    splitCh '_' (c :: l) = (c :: (splitCh '_' l).1, (splitCh '_' l).2) := by
  simp [splitCh, hc]

theorem splitCh_no_underscore (l : List Char) :
    ('_' ∉ (splitCh '_' l).1) ∧ ∀ g ∈ (splitCh '_' l).2, '_' ∉ g := by
  induction l with
  | nil => simp [splitCh]
  | cons c t ih =>
    by_cases hc : c = '_'
    · subst hc
      rw [splitCh_underscore]
      refine ⟨by simp, ?_⟩
      intro g hg
      rcases List.mem_cons.mp hg with rfl | hg'
      · exact ih.1
      · exact ih.2 g hg'
    · rw [splitCh_cons_ne c t hc]
      refine ⟨?_, ih.2⟩
      intro hmem
      rcases List.mem_cons.mp hmem with h | h
      · exact hc h.symm
      · exact ih.1 h

/-- The underscore-prefixed tail of a `"_".join`: empty for no groups, else
a separator followed by the joined groups. -/
def tailJoinU (fs : List (List Char)) : List Char :=
  if fs.isEmpty then [] else '_' :: joinU fs

theorem joinU_cons (g : List Char) (fs : List (List Char)) :
    joinU (g :: fs) = g ++ tailJoinU fs := by
  cases fs with
  | nil => simp [joinU, tailJoinU]
  | cons f fs' => simp [joinU, tailJoinU]

/-- The non-empty groups after the first, in order. -/
def fsOfU (l : List Char) : List (List Char) :=
  ((splitCh '_' l).2).filter (fun g => !g.isEmpty)

theorem collapse_strip_split (l : List Char) :
    dropTrailingUnderscores (collapseUnderscoreRuns l) =
      (splitCh '_' l).1 ++ tailJoinU (fsOfU l) := by
  induction l with
  | nil => rfl
  | cons c t ih =>
    by_cases hc : c = '_'
    · subst hc
      cases t with
      | nil => decide
      | cons c' t' =>
        by_cases hc' : c' = '_'
        · subst hc'
          rw [collapseU_uu, ih]
          simp [splitCh_underscore, fsOfU, List.filter_cons]
        · have hcol : collapseUnderscoreRuns (c' :: t') =
              c' :: collapseUnderscoreRuns t' := collapseU_cons_ne c' t' hc'
          have hhead : (collapseUnderscoreRuns (c' :: t')).head? ≠ some '_' := by
            rw [hcol]
            simp [hc']
          have hsp := splitCh_cons_ne c' t' hc'
          have hne : dropTrailingUnderscores (collapseUnderscoreRuns (c' :: t'))
              ≠ [] := by
            rw [ih, hsp]
            simp
          rw [collapseU_underscore_of_head_ne _ hhead,
            dropTrailU_cons_of_ne_nil '_' _ hne, ih, hsp]
          simp [splitCh_underscore, hsp, fsOfU, List.filter_cons, tailJoinU,
            joinU_cons]
    · rw [collapseU_cons_ne c t hc, dropTrailU_cons_ne c _ hc, ih,
        splitCh_cons_ne c t hc]
      simp [fsOfU, splitCh_cons_ne c t hc]

theorem dropWhile_tailJoinU (fs : List (List Char))
    (hfs : ∀ g ∈ fs, g ≠ [] ∧ '_' ∉ g) :
    (tailJoinU fs).dropWhile (fun c => c == '_') = joinU fs := by
  cases fs with
  | nil => rfl
  | cons f fs' =>
    have hf := hfs f (List.mem_cons_self f fs')
    rcases hfl : f with _ | ⟨fc, f''⟩
    · exact absurd hfl hf.1
    · have hfc : fc ≠ '_' := by
        intro h
        exact hf.2 (by rw [hfl, h]; exact List.mem_cons_self _ _)
      rw [tailJoinU, if_neg (by simp), List.dropWhile_cons, if_pos (by simp),
        joinU_cons, List.cons_append, List.dropWhile_cons,
        if_neg (by simp [hfc]), ← List.cons_append, ← joinU_cons]

theorem pySafeText_eq_spec (l : List Char) :
    joinU ((pySplit '_' l).filter (fun g => !g.isEmpty)) =
      stripUnderscores (collapseUnderscoreRuns l) := by
  have hNG := splitCh_no_underscore l
  have hfs : ∀ g ∈ fsOfU l, g ≠ [] ∧ '_' ∉ g := by
    intro g hgm
    have hm := List.mem_filter.mp hgm
    exact ⟨by simpa using hm.2, hNG.2 g hm.1⟩
  rw [stripUnderscores, collapse_strip_split, List.dropWhile_append, pySplit]
  rcases hg : (splitCh '_' l).1 with _ | ⟨gc, g''⟩
  · rw [if_pos (by simp)]
    simp only [List.filter_cons]
    rw [if_neg (by simp)]
    exact (dropWhile_tailJoinU (fsOfU l) hfs).symm
  · have hgc : gc ≠ '_' := by
      intro h
      apply hNG.1
      rw [hg, h]
      exact List.mem_cons_self _ _
    rw [if_neg (by simp [List.dropWhile_cons, hgc])]
    simp only [List.filter_cons]
    rw [if_pos (by simp)]
    rw [joinU_cons, List.cons_append, List.dropWhile_cons, if_neg (by simp [hgc])]
    rfl

/-- C9: the scraper's filename-token sanitization — map non-alphanumerics to
underscores, split on underscores, drop empty pieces, rejoin — equals the
spec's description: collapse every underscore run to a single underscore and
strip leading/trailing underscores, with the `"Unknown_Date"` fallback when
the snippet is absent or sanitizes to the empty string; and the destination
filename is `CreditRating-<token>.pdf`. -/
theorem screener_token_sanitization (raw : Option String) :
    sanitizeDateToken raw = specSanitizeToken raw ∧
    creditRatingFilename raw = "CreditRating-" ++ specSanitizeToken raw ++ ".pdf" := by
  have h : sanitizeDateToken raw = specSanitizeToken raw := by
    cases raw with
    | none => rfl
    | some r =>
      simp only [sanitizeDateToken, specSanitizeToken, pySafeText]
      rw [pySafeText_eq_spec]
  exact ⟨h, by rw [creditRatingFilename, h]⟩

/-! ## Folder sanitization (`sanitize_folder_name`, file_utils.py 7-33) and
the orchestrator (`process_request`, service.py 35-121) -/

/-- `sanitize_folder_name`: `none` models a raised `ValueError`
(the `InvalidDestination` condition): empty/whitespace name, path separators
or `..`, or a name that cleans to the empty string; otherwise the name with
the characters `<>:"/\|?*` removed and surrounding whitespace stripped. -/
def sanitizeFolderName (name : String) : Option String :=
  if name == "" || pyStrip name == "" then none
  else if strContains name ".." || strContains name "/" || strContains name "\\"
  then none
  else
    let cleaned := pyStrip (String.mk (name.toList.filter
      (fun c => !(['<', '>', ':', '"', '/', '\\', '|', '?', '*'].contains c))))
    if cleaned == "" then none else some cleaned

example : sanitizeFolderName "My Docs" = some "My Docs" := by decide
example : sanitizeFolderName "a/b" = none := by decide
example : sanitizeFolderName ".." = none := by decide
example : sanitizeFolderName "   " = none := by decide
example : sanitizeFolderName "??" = none := by decide
example : sanitizeFolderName " RELIANCE:docs " = some "RELIANCEdocs" := by decide

/-- The run-aborting errors of `process_request`: a rejected folder name
(`ValueError` from `get_download_path`) or a failed symbol validation
(`ValueError "Symbol ... is invalid"`). -/
inductive ProcErr where
  | invalidDestination
  | invalidSymbol
deriving DecidableEq

/-- One entry of `DOWNLOAD_CATEGORIES_CONFIG` (config.py 22-51). -/
structure CatConfig where
  key : String
  enabledArg : String
  label : String
deriving DecidableEq

/-- `DOWNLOAD_CATEGORIES_CONFIG`, in dict insertion order. -/
def DOWNLOAD_CATEGORIES_CONFIG : List CatConfig :=
  [⟨"transcripts", "download_transcripts", "transcript"⟩,
   ⟨"investor_presentations", "download_investor_presentations",
    "investor presentation"⟩,
   ⟨"press_releases", "download_press_releases", "press release"⟩,
   ⟨"credit_rating", "download_credit_rating", "credit rating"⟩,
   ⟨"related_party_txns", "download_related_party_txns",
    "related party transaction"⟩,
   ⟨"annual_reports", "download_annual_reports", "annual report"⟩,
   ⟨"issue_documents", "download_issue_documents", "issue document"⟩]

/-- The collaborator oracle for one `process_request` run: the results the
`NSEAdapter` would produce.  The adapter catches every exception of the
underlying library, so all of these are total: errors surface as `false`,
`[]`, `""` or `0`, never as exceptions. -/
structure Adapter where
  validSymbol : Bool
  announcements : List FilingRecord
  annualReports : List (String × List ARDoc)
  companyName : String
  issueDocs : String → List (String × String) → List IssueDoc
  downloadOk : String → Bool
  downloadExtractOk : String → Bool
  primaryCreditCount : Nat
  existingCreditFiles : List String

/-- The standard-category branch of the `process_request` loop
(service.py 107-119): iterate the shared filing list, download every
matching record's attachment, count successes.  No dedupe pass. -/
def processStandardCategory (key : String) (anns : List FilingRecord)
    (ok : String → Bool) : Nat × List Event :=
  anns.foldl (fun st item =>
    if matchesFilter key item then
      let url := item.attchmntFile.getD ""
      if url == "" then st
      else if ok url then (st.1 + 1, st.2 ++ [Event.download url])
      else (st.1, st.2 ++ [Event.download url])
    else st) (0, [])

/-- The per-category dispatch of the `process_request` loop
(service.py 85-119): annual reports, credit ratings and issue documents go to
their bespoke handlers, everything else to the standard branch.  Returns the
`category_counts` entries this category contributes and its events. -/
def runCategory (A : Adapter) (fromYear toYear : Int) (allMode : Bool)
    (symbol : String) (anns : List FilingRecord) (cfg : CatConfig) :
    List (String × Nat) × List Event :=
  if cfg.key == "annual_reports" then
    let r := processAnnualReports A.annualReports fromYear toYear allMode
      A.downloadOk
    ([(cfg.label, r.1)], Event.fetchAnnualReports :: r.2.map Event.download)
  else if cfg.key == "credit_rating" then
    let r := processCreditRatings A.primaryCreditCount anns
      A.existingCreditFiles A.downloadOk
    ([(cfg.label, r.1)], r.2)
  else if cfg.key == "issue_documents" then
    let r := processIssueDocuments symbol A.companyName A.issueDocs
      A.downloadExtractOk
    (r.1, r.2)
  else
    let r := processStandardCategory cfg.key anns A.downloadOk
    ([(cfg.label, r.1)], r.2)

/-- `KnowledgeService.process_request`: sanitize the destination folder
(abort with `InvalidDestination` on rejection), validate the symbol (abort
with `InvalidSymbol` before fetching anything), fetch the announcement list
once, then run every enabled category in the fixed config order, aggregating
label-keyed counts.  Besides the result it returns the event trace. -/
def processRequest (folderName symbol : String) (fromYear toYear : Int)
    (opts : String → Bool) (allMode : Bool) (A : Adapter) :
    Except ProcErr (List FilingRecord × List (String × Nat)) × List Event :=
  match sanitizeFolderName folderName with
  | none => (Except.error ProcErr.invalidDestination, [])
  | some _ =>
    if !A.validSymbol then
      (Except.error ProcErr.invalidSymbol, [Event.validateSymbol])
    else
      let anns := A.announcements
      let r := DOWNLOAD_CATEGORIES_CONFIG.foldl (fun acc cfg =>
        if opts cfg.enabledArg then
          let rc := runCategory A fromYear toYear allMode symbol anns cfg
          (acc.1 ++ rc.1, acc.2 ++ rc.2)
        else acc) ([], [])
      (Except.ok (anns, r.1),
       Event.validateSymbol :: Event.fetchAnnouncements :: r.2)

example :
    (processRequest "out" "HDFCBANK" 2024 2024 (fun _ => true) false
      ⟨true, [⟨some "investor presentation", none, some "http://n/p.pdf"⟩],
       [], "", fun _ _ => [], fun _ => true, fun _ => true, 0, []⟩).1 =
    Except.ok ([⟨some "investor presentation", none, some "http://n/p.pdf"⟩],
      [("transcript", 0), ("investor presentation", 1), ("press release", 0),
       ("credit rating", 0), ("related party transaction", 0),
       ("annual report", 0), ("Offer Documents (IPO)", 0), ("Rights Issue", 0),
       ("QIP Offer", 0), ("Information Memorandum", 0),
       ("Scheme of Arrangement", 0)]) := rfl

/-! ## C3 — error propagation policy -/

/-- C3: `process_request` aborts only on the two precondition failures.  A
rejected destination folder aborts with `InvalidDestination` before anything
else (empty trace); an invalid symbol aborts with `InvalidSymbol` with trace
exactly `[validateSymbol]` — before any announcement fetch or document
download is attempted; and whenever both preconditions hold the run returns
`ok` with a label-keyed counts map for *every* collaborator oracle, i.e. all
per-item and per-endpoint failures (failing downloads, empty endpoint
responses) are contained. -/
theorem process_request_error_policy (folderName symbol : String)
    (fromYear toYear : Int) (opts : String → Bool) (allMode : Bool)
    (A : Adapter) :
    (sanitizeFolderName folderName = none →
      processRequest folderName symbol fromYear toYear opts allMode A =
        (Except.error ProcErr.invalidDestination, [])) ∧
    (sanitizeFolderName folderName ≠ none → A.validSymbol = false →
      processRequest folderName symbol fromYear toYear opts allMode A =
        (Except.error ProcErr.invalidSymbol, [Event.validateSymbol])) ∧
    (sanitizeFolderName folderName ≠ none → A.validSymbol = true →
      ∃ counts events,
        processRequest folderName symbol fromYear toYear opts allMode A =
          (Except.ok (A.announcements, counts),
           Event.validateSymbol :: Event.fetchAnnouncements :: events)) := by
  refine ⟨?_, ?_, ?_⟩
  · intro h
    simp [processRequest, h]
  · intro h hv
    rcases hs : sanitizeFolderName folderName with _ | c
    · exact absurd hs h
    · simp [processRequest, hs, hv]
  · intro h hv
    rcases hs : sanitizeFolderName folderName with _ | c
    · exact absurd hs h
    · refine ⟨(DOWNLOAD_CATEGORIES_CONFIG.foldl (fun acc cfg =>
          if opts cfg.enabledArg then
            let rc := runCategory A fromYear toYear allMode symbol
              A.announcements cfg
            (acc.1 ++ rc.1, acc.2 ++ rc.2)
          else acc) ([], [])).1,
        (DOWNLOAD_CATEGORIES_CONFIG.foldl (fun acc cfg =>
          if opts cfg.enabledArg then
            let rc := runCategory A fromYear toYear allMode symbol
              A.announcements cfg
            (acc.1 ++ rc.1, acc.2 ++ rc.2)
          else acc) ([], [])).2, ?_⟩
      simp [processRequest, hs, hv]

/-- Witness for C3: an invalid symbol aborts with `InvalidSymbol`, trace
`[validateSymbol]` — nothing was fetched or downloaded. -/
theorem process_request_error_policy_witness :
    processRequest "out" "ZZZZZZ" 2024 2024 (fun _ => true) false
      ⟨false, [], [], "", fun _ _ => [], fun _ => false, fun _ => false, 0, []⟩ =
      (Except.error ProcErr.invalidSymbol, [Event.validateSymbol]) :=
  (process_request_error_policy "out" "ZZZZZZ" 2024 2024 (fun _ => true) false
    ⟨false, [], [], "", fun _ _ => [], fun _ => false, fun _ => false, 0, []⟩).2.1
    (by decide) rfl
